import Mathlib

/-!
Shallow embedding of the pdf-chatbot backend (src/backend/worker.py and
src/backend/api.py).  External collaborators (RabbitMQ, Qdrant, the embedding
model, the generation model, the filesystem) are modelled as explicit inputs:
an environment record describes the outcome of every external call, and the
vector store / conversation store are passed as explicit state.
-/

namespace PdfChatbot

/-! ## Chunker -/

/-- Modelled from the spec: the text splitter used by the worker
(RecursiveCharacterTextSplitter, configured in worker.py lines 54-60 with
chunk size 800 and overlap 100) is third-party library code not present in
this repository.  Following spec section 4.3, extracted text is split into
a sliding window of segments of at most 800 characters whose consecutive
segments overlap by 100 characters; the stride is therefore 700.  The fuel
argument bounds the recursion and is always called with the text length. -/
def chunkTextAux : Nat → List Char → List (List Char)
  | 0, t => [t]
  | fuel + 1, t =>
    if t.length ≤ 800 then [t]
    else t.take 800 :: chunkTextAux fuel (t.drop 700)

/-- Modelled from the spec: splitting one extracted text into chunks. -/
def chunkText (t : List Char) : List (List Char) :=
  chunkTextAux t.length t

/-! ## Vector store (Qdrant, as used by worker.py and api.py) -/

/-- A stored, searchable unit (qdrant PointStruct as built in worker.py
lines 89-97): id, vector, and the payload fields page_content, source, page. -/
structure VectorPoint where
  id : Nat
  vector : List Int
  content : List Char
  source : String
  page : Nat
deriving DecidableEq

/-- A qdrant collection: dimensionality fixed at creation, plus stored points. -/
structure Collection where
  dim : Nat
  points : List VectorPoint
deriving DecidableEq

/-- The vector store: a collection per name (collection name = doc_id). -/
def VectorStore : Type := String → Option Collection

/-- get_collection: look a collection up by name; None models the raised
exception when the collection does not exist. -/
def getCollection (store : VectorStore) (name : String) : Option Collection :=
  store name

/-- recreate_collection (worker.py lines 75-81): install a fresh, empty
collection of the given dimensionality under the name, destroying whatever
was stored there. -/
def recreateCollection (store : VectorStore) (name : String) (dim : Nat) : VectorStore :=
  fun n => if n = name then some { dim := dim, points := [] } else store n

/-- The ensure-collection step of worker.py lines 69-81: try get_collection;
only when that fails (collection absent) call recreate_collection. -/
def ensureCollection (store : VectorStore) (name : String) (dim : Nat) : VectorStore :=
  match store name with
  | some _ => store
  | none => recreateCollection store name dim

/-- Upsert one point into a collection: overwrite the point with the same id
if present, otherwise append. -/
def Collection.upsertPoint (col : Collection) (p : VectorPoint) : Collection :=
  if col.points.any (fun q => q.id = p.id) then
    { col with points := col.points.map (fun q => if q.id = p.id then p else q) }
  else
    { col with points := col.points ++ [p] }

/-- qdrant_client.upsert (worker.py lines 100-103): upsert one point into the
named collection. -/
def upsert (store : VectorStore) (name : String) (p : VectorPoint) : VectorStore :=
  fun n => if n = name then (store n).map (fun col => col.upsertPoint p) else store n

/-! ## Ingestion worker (worker.py process_pdf) -/

/-- One page of text extracted by the PDF loader, with its metadata. -/
structure Page where
  content : List Char
  source : String
  page : Nat

/-- One chunk produced by the splitter, carrying its page metadata. -/
structure Chunk where
  content : List Char
  source : String
  page : Nat

/-- Errors of external calls other than the missing-file check: in Python all
of these raise exceptions that are not FileNotFoundError. -/
inductive TransientErr where
  | extractFailed
  | embedFailed
deriving DecidableEq

/-- Everything the try block of process_pdf can raise. -/
inductive WorkerErr where
  | invalidJson
  | missingDocId
  | missingFilePath
  | fileNotFound
  | transient (e : TransientErr)
deriving DecidableEq

/-- Outcome of json.loads(body) plus the two key lookups (worker.py
lines 32-34): not JSON at all, a missing key, or both fields present. -/
inductive ParseResult where
  | notJson
  | missingDocId
  | missingFilePath
  | fields (docId filePath : String)
deriving DecidableEq

/-- Outcomes of the worker's external calls for one delivered job. -/
structure WorkerEnv where
  parse : ParseResult
  fileExists : String → Bool
  extract : String → Except TransientErr (List Page)
  embed : List Char → Except TransientErr (List Int)

/-- split_documents (worker.py line 60): chunk every extracted page, keeping
its source and page metadata as the chunk's metadata. -/
def splitDocuments (pages : List Page) : List Chunk :=
  (pages.map (fun p =>
    (chunkText p.content).map (fun cs => Chunk.mk cs p.source p.page))).flatten

/-- The for loop of worker.py lines 84-103: for i, chunk in enumerate(chunks),
embed the chunk, build the point with id i, and upsert it.  The state is kept
even when an embedding call fails, because upserts already performed are not
rolled back. -/
def storeChunks (embed : List Char → Except TransientErr (List Int))
    (name : String) : List Chunk → Nat → VectorStore → VectorStore × Option WorkerErr
  | [], _, store => (store, none)
  | c :: rest, i, store =>
    match embed c.content with
    | Except.error e => (store, some (WorkerErr.transient e))
    | Except.ok v =>
        storeChunks embed name rest (i + 1)
          (upsert store name
            { id := i, vector := v, content := c.content, source := c.source, page := c.page })

/-- The try block of process_pdf (worker.py lines 30-108): parse the job,
check the file exists, extract, chunk, probe the embedding dimension with
the string "test", ensure the collection, then store every chunk.  Returns
the vector store after the run and the raised error, if any. -/
def processPdfRun (env : WorkerEnv) (store : VectorStore) : VectorStore × Option WorkerErr :=
  match env.parse with
  | ParseResult.notJson => (store, some WorkerErr.invalidJson)
  | ParseResult.missingDocId => (store, some WorkerErr.missingDocId)
  | ParseResult.missingFilePath => (store, some WorkerErr.missingFilePath)
  | ParseResult.fields docId filePath =>
    if env.fileExists filePath then
      match env.extract filePath with
      | Except.error e => (store, some (WorkerErr.transient e))
      | Except.ok pages =>
        match env.embed "test".toList with
        | Except.error e => (store, some (WorkerErr.transient e))
        | Except.ok sample =>
          storeChunks env.embed docId (splitDocuments pages) 0
            (ensureCollection store docId sample.length)
    else (store, some WorkerErr.fileNotFound)

/-- What the worker does with the delivery tag. -/
inductive AckAction where
  | ack
  | nackRequeue
  | nackNoRequeue
deriving DecidableEq

/-- process_pdf (worker.py lines 26-117): run the try block, then ack on
success, basic_nack with requeue=False on FileNotFoundError, and basic_nack
with requeue=True on every other exception. -/
def processPdf (env : WorkerEnv) (store : VectorStore) : AckAction × VectorStore :=
  match processPdfRun env store with
  | (s, none) => (AckAction.ack, s)
  | (s, some WorkerErr.fileNotFound) => (AckAction.nackNoRequeue, s)
  | (s, some _) => (AckAction.nackRequeue, s)

/-! ## Conversation store and chat endpoint (api.py chat_with_pdf) -/

/-- One question/answer exchange, as stored in conversation_history. -/
structure Turn where
  query : String
  response : String
deriving DecidableEq

/-- conversation_history: the in-memory map from conversation id to its
ordered list of turns; a missing key reads as the empty list, matching
conversation_history.get(conversation_id, []). -/
def HistoryMap : Type := String → List Turn

/-- Write one conversation's turn list back into the map. -/
def setHistory (m : HistoryMap) (cid : String) (ts : List Turn) : HistoryMap :=
  fun c => if c = cid then ts else m c

/-- Render one turn the way api.py line 198 does. -/
def renderTurn (t : Turn) : String :=
  "Human: " ++ t.query ++ "\nAssistant: " ++ t.response

/-- Python's sep.join(list). -/
def joinWith (sep : String) : List String → String
  | [] => ""
  | [s] => s
  | s :: rest => s ++ sep ++ joinWith sep rest

/-- Python's history[-3:] on a list: the last three turns, or the whole list
when it has fewer than three. -/
def lastThree (h : List Turn) : List Turn :=
  h.drop (h.length - 3)

/-- formatted_history (api.py line 198): the last three turns rendered as
alternating Human/Assistant lines joined by newlines. -/
def formatHistory (h : List Turn) : String :=
  joinWith "\n" ((lastThree h).map renderTurn)

/-- A chat request body (api.py ChatRequest). -/
structure ChatRequest where
  doc_id : String
  query : String
  conversation_id : Option String

/-- What the endpoint returns: the success body or an HTTPException. -/
inductive ChatResult where
  | ok (answer doc_id conversation_id : String)
  | error (status : Nat) (detail : String)
deriving DecidableEq

/-- The external calls the chat endpoint can make, in order. -/
inductive ChatEffect where
  | getCollectionCheck
  | invokeChain
deriving DecidableEq

/-- Outcomes of the chat endpoint's external calls: the uuid minted when no
conversation id is supplied, whether get_collection succeeds for a name, and
the outcome of rag_chain.invoke given the query and the formatted history. -/
structure ChatEnv where
  freshId : String
  collectionExists : String → Bool
  invoke : String → String → Except String String

/-- api.py line 129: request.conversation_id or str(uuid.uuid4()); Python's
`or` also replaces an empty string by a fresh id. -/
def resolveConversationId (req : ChatRequest) (fresh : String) : String :=
  match req.conversation_id with
  | none => fresh
  | some c => if c = "" then fresh else c

/-- Result of one chat call: the response, the conversation store after the
call, and the trace of external calls made. -/
structure ChatOutcome where
  result : ChatResult
  history : HistoryMap
  effects : List ChatEffect

/-- chat_with_pdf (api.py lines 118-225): validate the input, resolve the
conversation id, check the collection exists (404 when absent), invoke the
RAG chain with the query and the formatted last-three-turn history, and only
on success append the new turn to the conversation store. -/
def chat_with_pdf (env : ChatEnv) (hist : HistoryMap) (req : ChatRequest) : ChatOutcome :=
  if req.doc_id = "" ∨ req.query = "" then
    { result := ChatResult.error 400 "Document ID and query are required"
      history := hist
      effects := [] }
  else
    let cid := resolveConversationId req env.freshId
    if env.collectionExists req.doc_id then
      let h := hist cid
      match env.invoke req.query (formatHistory h) with
      | Except.error e =>
        { result := ChatResult.error 500 ("Chat failed: " ++ e)
          history := hist
          effects := [ChatEffect.getCollectionCheck, ChatEffect.invokeChain] }
      | Except.ok answer =>
        { result := ChatResult.ok answer req.doc_id cid
          history := setHistory hist cid (h ++ [{ query := req.query, response := answer }])
          effects := [ChatEffect.getCollectionCheck, ChatEffect.invokeChain] }
    else
      { result := ChatResult.error 404 "Document collection not found. Processing may still be ongoing."
        history := hist
        effects := [ChatEffect.getCollectionCheck] }

/-! ## Status stream (api.py document_status_stream) -/

/-- One server-sent status event. -/
inductive StatusEvent where
  | processing
  | processed
deriving DecidableEq

/-- The event generator of api.py lines 232-248, driven by the sequence of
get_collection outcomes it observes (true = collection exists).  On a
successful check it emits processed and breaks; on a failed check it emits
processing, sleeps two seconds (an abstract step here) and loops.  A finite
outcome list models a finite observation window of the unbounded loop. -/
def streamEvents : List Bool → List StatusEvent
  | [] => []
  | true :: _ => [StatusEvent.processed]
  | false :: rest => StatusEvent.processing :: streamEvents rest

/-! ## Theorems -/

/-- C1: when the collection for a doc_id already exists with the same
dimensionality, the ensure-collection step (check existence, create only if
absent) does not error and leaves the whole store — in particular the
collection's dimensionality and stored points — unchanged. -/
theorem ensureCollection_existing_unchanged (store : VectorStore) (name : String)
    (dim : Nat) (col : Collection)
    (hex : getCollection store name = some col) (hdim : col.dim = dim) :
    ensureCollection store name dim = store
      ∧ getCollection (ensureCollection store name dim) name = some col := by
  have h1 : ensureCollection store name dim = store := by
    unfold ensureCollection
    rw [show store name = some col from hex]
  exact ⟨h1, by rw [h1]; exact hex⟩

/-- C1 witness. -/
theorem ensureCollection_existing_unchanged_witness :
    ensureCollection (fun n => if n = "doc1" then some ⟨3, []⟩ else none) "doc1" 3
        = (fun n => if n = "doc1" then some ⟨3, []⟩ else none)
      ∧ getCollection
          (ensureCollection (fun n => if n = "doc1" then some ⟨3, []⟩ else none) "doc1" 3)
          "doc1" = some ⟨3, []⟩ :=
  ensureCollection_existing_unchanged _ "doc1" 3 ⟨3, []⟩ rfl rfl

/-- C2: a job whose referenced file does not exist is rejected without
redelivery (nack, requeue=False), and a job whose run raises any other error
is rejected with redelivery requested (nack, requeue=True). -/
theorem worker_retry_policy (env : WorkerEnv) (store : VectorStore) (d f : String) :
    (env.parse = ParseResult.fields d f → env.fileExists f = false →
      (processPdf env store).fst = AckAction.nackNoRequeue)
    ∧ (∀ e : WorkerErr, (processPdfRun env store).snd = some e →
        e ≠ WorkerErr.fileNotFound →
        (processPdf env store).fst = AckAction.nackRequeue) := by
  constructor
  · intro hp hf
    have hrun : processPdfRun env store = (store, some WorkerErr.fileNotFound) := by
      simp [processPdfRun, hp, hf]
    simp [processPdf, hrun]
  · intro e he hne
    rcases hq : processPdfRun env store with ⟨s, o⟩
    rw [hq] at he
    simp only at he
    subst he
    cases e with
    | fileNotFound => exact absurd rfl hne
    | invalidJson => simp [processPdf, hq]
    | missingDocId => simp [processPdf, hq]
    | missingFilePath => simp [processPdf, hq]
    | transient e => simp [processPdf, hq]

/-- C2 witness. -/
theorem worker_retry_policy_witness :
    (processPdf
        { parse := ParseResult.fields "d" "f"
          fileExists := fun _ => false
          extract := fun _ => Except.ok []
          embed := fun _ => Except.ok [0] }
        (fun _ => none)).fst = AckAction.nackNoRequeue :=
  (worker_retry_policy _ _ "d" "f").left rfl rfl

/-- C9: a job message that is not valid JSON, or lacks the doc_id or
file_path key, is treated as a transient failure: it is rejected with
redelivery requested (nack, requeue=True), never without. -/
theorem worker_malformed_job_requeued (env : WorkerEnv) (store : VectorStore)
    (h : env.parse = ParseResult.notJson ∨ env.parse = ParseResult.missingDocId
        ∨ env.parse = ParseResult.missingFilePath) :
    (processPdf env store).fst = AckAction.nackRequeue := by
  rcases h with h | h | h <;> simp [processPdf, processPdfRun, h]

/-- C9 witness. -/
theorem worker_malformed_job_requeued_witness :
    (processPdf
        { parse := ParseResult.notJson
          fileExists := fun _ => true
          extract := fun _ => Except.ok []
          embed := fun _ => Except.ok [0] }
        (fun _ => none)).fst = AckAction.nackRequeue :=
  worker_malformed_job_requeued _ _ (Or.inl rfl)

/-- C10: a chat request whose doc_id or query is the empty string is rejected
with a 400 client error, the conversation store is untouched, and no external
call (retrieval or generation) is made. -/
theorem chat_empty_input_rejected (env : ChatEnv) (hist : HistoryMap) (req : ChatRequest)
    (h : req.doc_id = "" ∨ req.query = "") :
    (chat_with_pdf env hist req).result
        = ChatResult.error 400 "Document ID and query are required"
    ∧ (chat_with_pdf env hist req).history = hist
    ∧ (chat_with_pdf env hist req).effects = [] := by
  unfold chat_with_pdf
  rw [if_pos h]
  exact ⟨rfl, rfl, rfl⟩

/-- C10 witness. -/
theorem chat_empty_input_rejected_witness :
    (chat_with_pdf
        { freshId := "u", collectionExists := fun _ => true
          invoke := fun _ _ => Except.ok "a" }
        (fun _ => []) { doc_id := "", query := "q", conversation_id := none }).result
      = ChatResult.error 400 "Document ID and query are required" :=
  (chat_empty_input_rejected _ _ _ (Or.inl rfl)).left

/-- C4: a chat request with nonempty doc_id and query whose collection does
not exist gets the distinct not-ready 404 response, never the generic
500-equivalent failure. -/
theorem chat_missing_collection_not_ready (env : ChatEnv) (hist : HistoryMap)
    (req : ChatRequest) (hd : req.doc_id ≠ "") (hq : req.query ≠ "")
    (hc : env.collectionExists req.doc_id = false) :
    (chat_with_pdf env hist req).result
      = ChatResult.error 404 "Document collection not found. Processing may still be ongoing."
    ∧ ∀ d : String, (chat_with_pdf env hist req).result ≠ ChatResult.error 500 d := by
  have hne : ¬ (req.doc_id = "" ∨ req.query = "") := by
    rintro (h | h)
    · exact hd h
    · exact hq h
  have hres : (chat_with_pdf env hist req).result
      = ChatResult.error 404 "Document collection not found. Processing may still be ongoing." := by
    unfold chat_with_pdf
    rw [if_neg hne, if_neg (by simp [hc])]
  refine ⟨hres, ?_⟩
  intro d hcontra
  rw [hres] at hcontra
  injection hcontra with h1 h2
  exact absurd h1 (by decide)

/-- C4 witness. -/
theorem chat_missing_collection_not_ready_witness :
    (chat_with_pdf
        { freshId := "u", collectionExists := fun _ => false
          invoke := fun _ _ => Except.ok "a" }
        (fun _ => []) { doc_id := "d", query := "q", conversation_id := none }).result
      = ChatResult.error 404 "Document collection not found. Processing may still be ongoing." :=
  (chat_missing_collection_not_ready _ _ _ (by decide) (by decide) rfl).left

/-- C3: when the RAG chain invocation fails, the chat endpoint surfaces a
generic 500 failure and leaves the conversation store unchanged; a turn is
appended only when the invocation returns an answer. -/
theorem chat_no_commit_on_generation_failure (env : ChatEnv) (hist : HistoryMap)
    (req : ChatRequest) (hd : req.doc_id ≠ "") (hq : req.query ≠ "")
    (hc : env.collectionExists req.doc_id = true) :
    (∀ e : String,
      env.invoke req.query (formatHistory (hist (resolveConversationId req env.freshId)))
        = Except.error e →
      (chat_with_pdf env hist req).result = ChatResult.error 500 ("Chat failed: " ++ e)
      ∧ (chat_with_pdf env hist req).history = hist)
    ∧ (∀ ans : String,
      env.invoke req.query (formatHistory (hist (resolveConversationId req env.freshId)))
        = Except.ok ans →
      (chat_with_pdf env hist req).history
        = setHistory hist (resolveConversationId req env.freshId)
            (hist (resolveConversationId req env.freshId)
              ++ [{ query := req.query, response := ans }])) := by
  have hne : ¬ (req.doc_id = "" ∨ req.query = "") := by
    rintro (h | h)
    · exact hd h
    · exact hq h
  constructor
  · intro e hinv
    unfold chat_with_pdf
    rw [if_neg hne]
    refine ⟨?_, ?_⟩ <;> simp only [hc, if_true, hinv]
  · intro ans hinv
    unfold chat_with_pdf
    rw [if_neg hne]
    simp only [hc, if_true, hinv]

/-- C3 witness. -/
theorem chat_no_commit_on_generation_failure_witness :
    (chat_with_pdf
        { freshId := "u", collectionExists := fun _ => true
          invoke := fun _ _ => Except.error "boom" }
        (fun _ => []) { doc_id := "d", query := "q", conversation_id := none }).result
      = ChatResult.error 500 ("Chat failed: " ++ "boom")
    ∧ (chat_with_pdf
        { freshId := "u", collectionExists := fun _ => true
          invoke := fun _ _ => Except.error "boom" }
        (fun _ => []) { doc_id := "d", query := "q", conversation_id := none }).history
      = (fun _ => []) :=
  (chat_no_commit_on_generation_failure _ _ _ (by decide) (by decide) rfl).left "boom" rfl

/-- C7: when the n-th existence check is the first to succeed, the status
stream emits one processing event per failed check, then a single terminal
processed event, and closes: nothing follows the processed event. -/
theorem streamEvents_terminal (cs : List Bool) (n : Nat) (hn : n < cs.length)
    (htrue : cs.get ⟨n, hn⟩ = true)
    (hfalse : ∀ i : Nat, ∀ hi : i < n, cs.get ⟨i, by omega⟩ = false) :
    streamEvents cs
      = List.replicate n StatusEvent.processing ++ [StatusEvent.processed] := by
  induction cs generalizing n with
  | nil => exact absurd hn (by simp)
  | cons b rest ih =>
    cases n with
    | zero =>
      have hb : b = true := htrue
      subst hb
      simp [streamEvents]
    | succ m =>
      have hb : b = false := hfalse 0 (Nat.succ_pos m)
      subst hb
      have hm : m < rest.length := by
        have := hn
        simp at this
        omega
      have ht : rest.get ⟨m, hm⟩ = true := htrue
      have hf : ∀ i : Nat, ∀ hi : i < m, rest.get ⟨i, by omega⟩ = false := by
        intro i hi
        exact hfalse (i + 1) (by omega)
      simp [streamEvents, List.replicate_succ]
      exact ih m hm ht hf

/-- C7 witness. -/
theorem streamEvents_terminal_witness :
    streamEvents [false, false, true]
      = List.replicate 2 StatusEvent.processing ++ [StatusEvent.processed] :=
  streamEvents_terminal [false, false, true] 2 (by decide) (by decide)
    (by intro i hi; interval_cases i <;> rfl)

/-- C5: when the conversation history holds more than three turns, the
formatted history injected into the prompt is exactly the last three turns,
in their original order, rendered as alternating Human/Assistant lines. -/
theorem formatHistory_last_three (h : List Turn) (hn : 3 < h.length) :
    formatHistory h
      = renderTurn (h.get ⟨h.length - 3, by omega⟩) ++ "\n"
        ++ renderTurn (h.get ⟨h.length - 2, by omega⟩) ++ "\n"
        ++ renderTurn (h.get ⟨h.length - 1, by omega⟩) := by
  have h3 : lastThree h
      = [h.get ⟨h.length - 3, by omega⟩, h.get ⟨h.length - 2, by omega⟩,
         h.get ⟨h.length - 1, by omega⟩] := by
    unfold lastThree
    rw [List.drop_eq_get_cons (by omega)]
    rw [show h.length - 3 + 1 = h.length - 2 by omega]
    rw [List.drop_eq_get_cons (by omega)]
    rw [show h.length - 2 + 1 = h.length - 1 by omega]
    rw [List.drop_eq_get_cons (by omega)]
    rw [show h.length - 1 + 1 = h.length by omega]
    rw [List.drop_length]
  unfold formatHistory
  rw [h3]
  simp [joinWith, String.append_assoc]

/-- Looking up the target collection after an upsert applies the point to it. -/
theorem getCollection_upsert_same (store : VectorStore) (name : String) (p : VectorPoint) :
    getCollection (upsert store name p) name
      = (getCollection store name).map (fun col => col.upsertPoint p) := by
  unfold getCollection upsert
  simp

/-- Upserting a point whose id is not yet present appends it. -/
theorem upsertPoint_fresh (col : Collection) (p : VectorPoint)
    (h : ∀ q ∈ col.points, q.id ≠ p.id) :
    col.upsertPoint p = { col with points := col.points ++ [p] } := by
  unfold Collection.upsertPoint
  rw [if_neg ?hne]
  case hne =>
    simp only [List.any_eq_true, decide_eq_true_eq, not_exists]
    intro q hq
    exact h q hq.left hq.right

/-- C6: the per-chunk loop of the worker processes chunks in sequence order,
builds for the i-th chunk a point with id i (ids strictly increasing from the
starting index), and upserts exactly one point per chunk, appending them in
order after the collection's existing points. -/
theorem storeChunks_point_ids
    (embed : List Char → Except TransientErr (List Int)) (name : String) :
    ∀ (chunks : List Chunk) (i : Nat) (store storeOut : VectorStore) (col : Collection),
      getCollection store name = some col →
      (∀ q ∈ col.points, q.id < i) →
      storeChunks embed name chunks i store = (storeOut, none) →
      ∃ ps : List VectorPoint,
        getCollection storeOut name = some { dim := col.dim, points := col.points ++ ps }
        ∧ ps.map VectorPoint.id = List.range' i chunks.length
        ∧ ps.map VectorPoint.content = chunks.map Chunk.content := by
  intro chunks
  induction chunks with
  | nil =>
    intro i store storeOut col hcol hlt hrun
    simp only [storeChunks, Prod.mk.injEq] at hrun
    refine ⟨[], ?_, rfl, rfl⟩
    rw [← hrun.left]
    simpa using hcol
  | cons c rest ih =>
    intro i store storeOut col hcol hlt hrun
    cases hemb : embed c.content with
    | error e =>
      exfalso
      simp only [storeChunks, hemb, Prod.mk.injEq] at hrun
      exact Option.noConfusion hrun.right
    | ok v =>
      simp only [storeChunks, hemb] at hrun
      have hcol1 : getCollection
          (upsert store name
            { id := i, vector := v, content := c.content, source := c.source, page := c.page })
          name
          = some { dim := col.dim
                   points := col.points
                     ++ [{ id := i, vector := v, content := c.content,
                           source := c.source, page := c.page }] } := by
        rw [getCollection_upsert_same, hcol]
        simp only [Option.map_some']
        rw [upsertPoint_fresh col _ (fun q hq => Nat.ne_of_lt (hlt q hq))]
      have hlt1 : ∀ q ∈ col.points
          ++ [{ id := i, vector := v, content := c.content,
                source := c.source, page := c.page }], q.id < i + 1 := by
        intro q hq
        rcases List.mem_append.mp hq with hq | hq
        · exact Nat.lt_succ_of_lt (hlt q hq)
        · simp only [List.mem_singleton] at hq
          subst hq
          exact Nat.lt_succ_self i
      obtain ⟨ps, hA, hB, hC⟩ := ih (i + 1) _ storeOut _ hcol1 hlt1 hrun
      refine ⟨{ id := i, vector := v, content := c.content,
                source := c.source, page := c.page } :: ps, ?_, ?_, ?_⟩
      · rw [hA]
        simp [List.append_assoc]
      · simp only [List.map_cons, hB, List.length_cons, List.range'_succ]
      · simp only [List.map_cons, hC]

/-- C6 witness. -/
theorem storeChunks_point_ids_witness :
    ∃ ps : List VectorPoint,
      getCollection
          ((storeChunks (fun _ => Except.ok [0]) "d"
              [⟨['a'], "s", 0⟩, ⟨['b'], "s", 0⟩] 0
              (fun n => if n = "d" then some ⟨1, []⟩ else none)).fst) "d"
        = some { dim := 1, points := [] ++ ps }
      ∧ ps.map VectorPoint.id
          = List.range' 0 ([⟨['a'], "s", 0⟩, ⟨['b'], "s", 0⟩] : List Chunk).length
      ∧ ps.map VectorPoint.content
          = ([⟨['a'], "s", 0⟩, ⟨['b'], "s", 0⟩] : List Chunk).map Chunk.content :=
  storeChunks_point_ids (fun _ => Except.ok [0]) "d"
    [⟨['a'], "s", 0⟩, ⟨['b'], "s", 0⟩] 0
    (fun n => if n = "d" then some ⟨1, []⟩ else none)
    ((storeChunks (fun _ => Except.ok [0]) "d"
        [⟨['a'], "s", 0⟩, ⟨['b'], "s", 0⟩] 0
        (fun n => if n = "d" then some ⟨1, []⟩ else none)).fst)
    ⟨1, []⟩ rfl (by simp) rfl

/-- The chunker never returns an empty chunk list. -/
theorem chunkTextAux_ne_nil (fuel : Nat) (t : List Char) : chunkTextAux fuel t ≠ [] := by
  cases fuel with
  | zero => simp [chunkTextAux]
  | succ fuel =>
    unfold chunkTextAux
    split <;> simp

/-- Under the fuel invariant, the first chunk is the first 800 characters. -/
theorem chunkTextAux_head (fuel : Nat) (t : List Char) (h : t.length ≤ fuel) :
    ∃ r, chunkTextAux fuel t = t.take 800 :: r := by
  cases fuel with
  | zero =>
    refine ⟨[], ?_⟩
    have ht : t = [] := List.eq_nil_of_length_eq_zero (Nat.le_zero.mp h)
    subst ht
    rfl
  | succ fuel =>
    unfold chunkTextAux
    by_cases hc : t.length ≤ 800
    · rw [if_pos hc, List.take_of_length_le hc]
      exact ⟨[], rfl⟩
    · rw [if_neg hc]
      exact ⟨_, rfl⟩

/-- Every chunk has at most 800 characters. -/
theorem chunkTextAux_size (fuel : Nat) :
    ∀ t : List Char, t.length ≤ fuel → ∀ c ∈ chunkTextAux fuel t, c.length ≤ 800 := by
  induction fuel with
  | zero =>
    intro t h c hc
    simp only [chunkTextAux, List.mem_singleton] at hc
    subst hc
    omega
  | succ fuel ih =>
    intro t h c hc
    unfold chunkTextAux at hc
    by_cases h8 : t.length ≤ 800
    · rw [if_pos h8] at hc
      simp only [List.mem_singleton] at hc
      subst hc
      exact h8
    · rw [if_neg h8] at hc
      rcases List.mem_cons.mp hc with hc | hc
      · subst hc
        simp
      · refine ih (t.drop 700) ?_ c hc
        simp only [List.length_drop]
        omega

/-- When the text is longer than 100 characters, every chunk is too. -/
theorem chunkTextAux_min_length (fuel : Nat) :
    ∀ t : List Char, t.length ≤ fuel → 100 < t.length →
      ∀ c ∈ chunkTextAux fuel t, 100 < c.length := by
  induction fuel with
  | zero =>
    intro t h h100
    omega
  | succ fuel ih =>
    intro t h h100 c hc
    unfold chunkTextAux at hc
    by_cases h8 : t.length ≤ 800
    · rw [if_pos h8] at hc
      simp only [List.mem_singleton] at hc
      subst hc
      exact h100
    · rw [if_neg h8] at hc
      rcases List.mem_cons.mp hc with hc | hc
      · subst hc
        simp only [List.length_take]
        omega
      · refine ih (t.drop 700) ?_ ?_ c hc <;> simp only [List.length_drop] <;> omega

/-- Under the fuel invariant, every non-final chunk has exactly 800
characters and its last 100 characters are the next chunk's first 100. -/
theorem chunkTextAux_chain (fuel : Nat) :
    ∀ t : List Char, t.length ≤ fuel →
      ∀ (i : Nat) (ci cj : List Char),
        (chunkTextAux fuel t)[i]? = some ci →
        (chunkTextAux fuel t)[i + 1]? = some cj →
        ci.length = 800 ∧ ci.drop 700 = cj.take 100 := by
  induction fuel with
  | zero =>
    intro t h i ci cj hci hcj
    exfalso
    simp only [chunkTextAux] at hcj
    simp at hcj
  | succ fuel ih =>
    intro t h i ci cj hci hcj
    by_cases h8 : t.length ≤ 800
    · exfalso
      have hone : chunkTextAux (fuel + 1) t = [t] := by
        unfold chunkTextAux
        rw [if_pos h8]
      rw [hone] at hcj
      simp at hcj
    · have hdef : chunkTextAux (fuel + 1) t
          = t.take 800 :: chunkTextAux fuel (t.drop 700) := by
        conv_lhs => unfold chunkTextAux
        rw [if_neg h8]
      have hinv : (t.drop 700).length ≤ fuel := by
        simp only [List.length_drop]
        omega
      rw [hdef] at hci hcj
      cases i with
      | zero =>
        simp only [List.getElem?_cons_zero, List.getElem?_cons_succ,
          Option.some.injEq] at hci hcj
        subst hci
        obtain ⟨r, hr⟩ := chunkTextAux_head fuel (t.drop 700) hinv
        rw [hr] at hcj
        simp only [List.getElem?_cons_zero, Option.some.injEq] at hcj
        subst hcj
        constructor
        · simp only [List.length_take]
          omega
        · rw [List.take_take]
          norm_num
          rw [List.take_drop]
      | succ j =>
        simp only [List.getElem?_cons_succ] at hci hcj
        exact ih (t.drop 700) hinv j ci cj hci hcj

/-- A text of at most 800 characters is one single chunk. -/
theorem chunkText_eq_single (t : List Char) (h : t.length ≤ 800) : chunkText t = [t] := by
  unfold chunkText
  cases hf : t.length with
  | zero => rfl
  | succ n =>
    unfold chunkTextAux
    rw [if_pos h]

/-- C8: every chunk produced by the chunker has at most 800 characters, and
each pair of consecutive chunks overlaps in exactly the 100 characters that
end the earlier chunk (which has exactly 800 characters) and begin the later
one (which has at least 100). -/
theorem chunkText_size_and_overlap (t : List Char) :
    (∀ c ∈ chunkText t, c.length ≤ 800)
    ∧ (∀ i : Nat, ∀ h1 : i + 1 < (chunkText t).length,
        ((chunkText t).get ⟨i, by omega⟩).length = 800
        ∧ ((chunkText t).get ⟨i, by omega⟩).drop 700
            = ((chunkText t).get ⟨i + 1, h1⟩).take 100
        ∧ 100 ≤ ((chunkText t).get ⟨i + 1, h1⟩).length) := by
  constructor
  · exact chunkTextAux_size t.length t le_rfl
  · intro i h1
    have hi : i < (chunkText t).length := by omega
    have hci : (chunkText t)[i]? = some ((chunkText t).get ⟨i, hi⟩) := by
      rw [List.getElem?_eq_getElem hi]
      simp [List.get_eq_getElem]
    have hcj : (chunkText t)[i + 1]? = some ((chunkText t).get ⟨i + 1, h1⟩) := by
      rw [List.getElem?_eq_getElem h1]
      simp [List.get_eq_getElem]
    obtain ⟨hlen, hover⟩ := chunkTextAux_chain t.length t le_rfl i _ _ hci hcj
    have h800 : 800 < t.length := by
      by_contra hle
      push_neg at hle
      rw [chunkText_eq_single t hle] at h1
      simp at h1
    have hmem : (chunkText t).get ⟨i + 1, h1⟩ ∈ chunkText t := List.get_mem _ _ _
    have h100 : 100 < ((chunkText t).get ⟨i + 1, h1⟩).length :=
      chunkTextAux_min_length t.length t le_rfl (by omega) _ hmem
    exact ⟨hlen, hover, by omega⟩

set_option maxRecDepth 40000 in
/-- C8 witness. -/
theorem chunkText_size_and_overlap_witness :
    ((chunkText (List.replicate 900 'a')).get ⟨0, by decide⟩).length = 800
    ∧ ((chunkText (List.replicate 900 'a')).get ⟨0, by decide⟩).drop 700
        = ((chunkText (List.replicate 900 'a')).get ⟨1, by decide⟩).take 100
    ∧ 100 ≤ ((chunkText (List.replicate 900 'a')).get ⟨1, by decide⟩).length :=
  (chunkText_size_and_overlap (List.replicate 900 'a')).right 0 (by decide)

/-- C5 witness. -/
theorem formatHistory_last_three_witness :
    formatHistory [⟨"q1", "a1"⟩, ⟨"q2", "a2"⟩, ⟨"q3", "a3"⟩, ⟨"q4", "a4"⟩]
      = renderTurn ⟨"q2", "a2"⟩ ++ "\n" ++ renderTurn ⟨"q3", "a3"⟩ ++ "\n"
        ++ renderTurn ⟨"q4", "a4"⟩ :=
  formatHistory_last_three [⟨"q1", "a1"⟩, ⟨"q2", "a2"⟩, ⟨"q3", "a3"⟩, ⟨"q4", "a4"⟩]
    (by decide)

end PdfChatbot
